import Mathlib

/-!
# healthy: mail a summary when the log-search backend reports failures

A shallow embedding of `main.go` and a verification of its poll, decide and notify cycle.

Conventions of the embedding.

* A Go `string` is a Lean `String`.  The program only concatenates strings and compares them
  with ASCII text, and both commute with the UTF-8 encoding.
* An `int64` is an `Int`.  The program never computes with `total`: it compares it with zero
  and prints it.
* A `bytes.Buffer` is represented by its unread portion, the only part of it that `Len`,
  `WriteString`, `String` and reading depend on.
* Calls that leave the process (`http.Post`, `http.Get`, `smtp.SendMail`, `time.Now`) are recorded
  in a trace of events, and what they return is an input of the model (`World`).
  `encoding/json` is a parameter `decode`, and `text/template` a field of `Env`.
* `log.Printf` has no effect on the control flow and is left out; `log.Fatalf` ends the process
  and is the `fatal` component of a result, one constructor for each call site.
* `search` is first embedded on the value of its parameter.  The loop of `main` is embedded on
  a memory of buffer variables and backing arrays, in which passing `options` by value makes
  a new variable that shares the backing array of the body.
* The loop of `main` never ends; `mainLoop` runs it over a finite list of ticks.
-/

namespace Healthy

/-! ## Library functions -/

/-- The digit loop of `strconv.formatBits` for base 10: while `u >= 10` the digit `u % 10` is
stored in front of the digits produced so far and `u` is divided by 10; the last digit is `u`.
The first argument bounds the number of iterations. -/
def formatBits : Nat → Nat → List Char → List Char
  | 0, _, a => a
  | fuel + 1, u, a =>
    if u < 10 then Nat.digitChar u :: a
    else formatBits fuel (u / 10) (Nat.digitChar (u % 10) :: a)

/-- Decimal digits of `u`, most significant first.  A number `u` has at most `u + 1` digits. -/
def decimal (u : Nat) : List Char :=
  formatBits (u + 1) u []

/-- The function `strconv.FormatInt(i, 10)`: the digits of the magnitude, after a minus sign when
`i` is negative. -/
def FormatInt (i : Int) : String :=
  if i < 0 then "-" ++ String.mk (decimal i.natAbs) else String.mk (decimal i.natAbs)

/-- The function `appendInt` of package `time`: the decimal form of `x`, padded with zeros on the
left up to `width` digits, after a minus sign when `x` is negative. -/
def appendInt (x : Int) (width : Nat) : String :=
  let digits := decimal x.natAbs
  let padded := List.replicate (width - digits.length) '0' ++ digits
  if x < 0 then "-" ++ String.mk padded else String.mk padded

/-- The date part of a `time.Time`. -/
structure Time where
  year : Int
  month : Nat
  day : Nat
  deriving DecidableEq, Repr

/-- The call `t.Format("2006.01.02")`: the year on four digits, the month and the day on two. -/
def Time.Format (t : Time) : String :=
  appendInt t.year 4 ++ "." ++ appendInt t.month 2 ++ "." ++ appendInt t.day 2

/-- A `bytes.Buffer`, as its unread portion. -/
structure Buffer where
  unread : String
  deriving DecidableEq, Repr

/-- The zero value `var b bytes.Buffer`. -/
def Buffer.empty : Buffer := ⟨""⟩

/-- The method `Len`: the number of bytes of the unread portion. -/
def Buffer.Len (b : Buffer) : Nat := b.unread.utf8ByteSize

/-- The method `WriteString`: `s` is appended to the buffer. -/
def Buffer.WriteString (b : Buffer) (s : String) : Buffer := ⟨b.unread ++ s⟩

/-- The method `Read`, called until `n` characters are read or the buffer is empty: what is
left of the unread portion stays in the buffer. -/
def Buffer.Read (b : Buffer) (n : Nat) : Buffer := ⟨String.mk (b.unread.data.drop n)⟩

/-- The method `String`: the unread portion, which stays in the buffer. -/
def Buffer.String (b : Buffer) : String := b.unread

/-! ## Data model -/

/-- The field `_source` of a hit. -/
structure Source where
  Message : String
  deriving DecidableEq, Repr

/-- One element of `Search.Hits.Hits`. -/
structure Hit where
  Source : Source
  deriving DecidableEq, Repr

/-- The field `Hits` of a `Search`. -/
structure SearchHits where
  Total : Int
  Hits : List Hit
  deriving DecidableEq, Repr

/-- Search response. -/
structure Search where
  Hits : SearchHits
  deriving DecidableEq, Repr

/-- Search template. -/
structure SearchTemplate where
  Interval : String
  deriving DecidableEq, Repr

/-- The options of the program; `from_` and `to_` are the fields `from` and `to`. -/
structure Options where
  esHost : String
  body : Buffer
  from_ : String
  to_ : String
  smtpHost : String
  deriving DecidableEq, Repr

/-- An HTTP request, as `http.Post(url, contentType, body)` or `http.Get(url)` issues it. -/
inductive Request where
  | post (url : String) (contentType : String) (body : String)
  | get (url : String)
  deriving DecidableEq, Repr

/-- The arguments of one call `smtp.SendMail(addr, nil, from, to, msg)`. -/
structure Mail where
  addr : String
  from_ : String
  to_ : List String
  msg : String
  deriving DecidableEq, Repr

/-- What the program does to the outside. -/
inductive Event where
  | request (r : Request)
  | sendMail (m : Mail)
  deriving DecidableEq, Repr

/-- The call sites of `log.Fatalf`, with the error they report, and the failed type assertion on
the interval argument. -/
inductive Fatal where
  | parseArguments (err : String)
  | intervalNotString
  | parseDuration (err : String)
  | readFile (err : String)
  | parseTemplate (err : String)
  | executeTemplate (err : String)
  | hostname (err : String)
  | user (err : String)
  | requestFailed (err : String)
  | requestError (statusCode : Int)
  | decodeResponse (err : String)
  | sendMail (err : String)
  deriving DecidableEq, Repr

/-- The part of an `http.Response` the program reads. -/
structure Response where
  StatusCode : Int
  Body : String
  deriving DecidableEq, Repr

/-- What the environment answers during one invocation of `search`: the date `time.Now` reads,
the result of the HTTP request, the error of `smtp.SendMail` (`none` is `nil`), and how many
characters of a request body the HTTP client had read from its reader when `http.Post`
returned (none of them when the connection is refused, all of them when the request is
sent). -/
structure World where
  now : Time
  http : Except String Response
  smtp : Option String
  bodyRead : Nat

/-- The trace of a run, the fatal error that ended it if any, and the final value of the
function's own copy of its `options` parameter. -/
structure Result where
  trace : List Event
  fatal : Option Fatal
  options : Options
  deriving DecidableEq, Repr

/-! ## The program -/

/-- The message of `send`: the `Subject` header, the blank line of the raw string literal, and
the messages. -/
def mailMessage (total : Int) (messages : String) : String :=
  "Subject: " ++ FormatInt total ++ " service(s) unavailable\n\n" ++ messages

/-- Send mail. -/
def send (w : World) (options : Options) (total : Int) (messages : String) : Result :=
  let to_ := [options.to_]
  let msg := mailMessage total messages
  let mail : Mail := ⟨options.smtpHost ++ ":25", options.from_, to_, msg⟩
  match w.smtp with
  | some err => ⟨[Event.sendMail mail], some (Fatal.sendMail err), options⟩
  | none => ⟨[Event.sendMail mail], none, options⟩

/-- The loop of `search` over the hits: each message and a newline is written to the buffer. -/
def writeMessages (hits : List Hit) (messages : Buffer) : Buffer :=
  hits.foldl (fun b hit => b.WriteString (hit.Source.Message ++ "\n")) messages

/-- The URL `search` builds before it chooses between POST and GET. -/
def baseURL (w : World) (options : Options) : String :=
  "http://" ++ options.esHost ++ ":9200/logstash-" ++ w.now.Format ++ "/_search"

/-- The request of `search`, and its copy of the options once the request has returned: a POST
is given the reader `&options.body`, the copy of the callee, whose unread portion is the body
of the request, and the HTTP client has read `w.bodyRead` characters of it. -/
def dispatch (w : World) (options : Options) : Request × Options :=
  let url := baseURL w options
  if options.body.Len > 0 then
    (Request.post url "application/json" options.body.unread,
      { options with body := options.body.Read w.bodyRead })
  else
    (Request.get (url ++ "?q=response:5*"), options)

/-- Search unavailable services. -/
def search (decode : String → Except String Search) (w : World) (options : Options) : Result :=
  let (req, options) := dispatch w options
  match w.http with
  | .error err => ⟨[Event.request req], some (Fatal.requestFailed err), options⟩
  | .ok res =>
    if res.StatusCode ≠ 200 then
      ⟨[Event.request req], some (Fatal.requestError res.StatusCode), options⟩
    else
      match decode res.Body with
      | .error err => ⟨[Event.request req], some (Fatal.decodeResponse err), options⟩
      | .ok search =>
        if search.Hits.Total > 0 then
          let messages := writeMessages search.Hits.Hits Buffer.empty
          let sent := send w options search.Hits.Total messages.String
          ⟨Event.request req :: sent.trace, sent.fatal, options⟩
        else
          ⟨[Event.request req], none, options⟩

/-- The mails of a trace, in order. -/
def mails : List Event → List Mail
  | [] => []
  | Event.sendMail m :: rest => m :: mails rest
  | Event.request _ :: rest => mails rest

/-- The requests of a trace, in order. -/
def requests : List Event → List Request
  | [] => []
  | Event.request r :: rest => r :: requests rest
  | Event.sendMail _ :: rest => requests rest

/-! ## Notions of the specification: message text and header section -/

/-- The concatenation of the messages, each followed by a newline (the words of the
specification, to compare with the loop of `search`). -/
def joinLines : List String → String
  | [] => ""
  | m :: ms => m ++ "\n" ++ joinLines ms

/-- The text before the first blank line of a message, on characters. -/
def beforeBlankLine : List Char → List Char
  | [] => []
  | '\n' :: '\n' :: _ => []
  | c :: rest => c :: beforeBlankLine rest

/-- The header section of a mail message: the text before the first blank line. -/
def headerSection (msg : String) : String :=
  String.mk (beforeBlankLine msg.data)

/-! ## Query templates -/

/-- A template that `Parse` of `text/template` returned, as what its method `Execute` does for
the data it is given: the text it writes to the writer, and the error it returns (`none` is
`nil`). -/
abbrev Template := SearchTemplate → String × Option String

/-! ## The start of `main` -/

/-- The string-valued entries of the map `docopt.Parse` returns: `none` for a key whose value is
not a string (an option that was not given). -/
abbrev Args := String → Option String

/-- What the environment and the libraries answer while `main` starts: the results of
`docopt.Parse`, `time.ParseDuration` (in nanoseconds), `ioutil.ReadFile`,
`template.New("search").Parse`, `os.Hostname` and `user.Current` (its `Username`). -/
structure Env where
  args : Except String Args
  ParseDuration : String → Except String Int
  ReadFile : String → Except String String
  Parse : String → Except String Template
  Hostname : Except String String
  Username : Except String String

/-- How the start of `main` ends: with the duration and the options of the loop, or with a
fatal error. -/
inductive Startup where
  | ok (duration : Int) (options : Options)
  | fatal (f : Fatal)
  deriving DecidableEq, Repr

/-- Get the option value, with a fallback to a default value if not found. -/
def option (args : Args) (name : String) (defaultValue : String) : String :=
  match args name with
  | some value => value
  | none => defaultValue

/-- The part of `main` after the request body is built: host name, user, and the options. -/
def finish (env : Env) (args : Args) (duration : Int) (esHost : String) (body : Buffer) :
    Startup :=
  match env.Hostname with
  | .error err => Startup.fatal (Fatal.hostname err)
  | .ok hostname =>
    match env.Username with
    | .error err => Startup.fatal (Fatal.user err)
    | .ok username =>
      let from_ := option args "--from" ("healthy@" ++ hostname)
      let to_ := option args "--to" (username ++ "@" ++ hostname)
      let smtpHost := option args "--smtp-host" "localhost"
      Startup.ok duration ⟨esHost, body, from_, to_, smtpHost⟩

/-- The function `main` up to its loop. -/
def setup (env : Env) : Startup :=
  match env.args with
  | .error err => Startup.fatal (Fatal.parseArguments err)
  | .ok args =>
    match args "<interval>" with
    | none => Startup.fatal Fatal.intervalNotString
    | some interval =>
      match env.ParseDuration interval with
      | .error err => Startup.fatal (Fatal.parseDuration err)
      | .ok duration =>
        let esHost := option args "--es-host" "localhost"
        let body := Buffer.empty
        match args "--es-search" with
        | some value =>
          match env.ReadFile value with
          | .error err => Startup.fatal (Fatal.readFile err)
          | .ok data =>
            match env.Parse data with
            | .error err => Startup.fatal (Fatal.parseTemplate err)
            | .ok tmpl =>
              let executed := tmpl (SearchTemplate.mk interval)
              let body := body.WriteString executed.1
              match executed.2 with
              | some err => Startup.fatal (Fatal.executeTemplate err)
              | none => finish env args duration esHost body
        | none => finish env args duration esHost body

/-! ## The loop of `main`, in memory: `options` passed by value -/

/-- The value of a `bytes.Buffer` variable: the slice `buf`, as the address of its backing array
and its length, and the read offset `off`.  Assigning a buffer copies these numbers; the
copies share the backing array. -/
structure BufferValue where
  array : Nat
  len : Nat
  off : Nat
  deriving DecidableEq, Repr

/-- The memory of the process, as far as the request body goes: the buffer variables by
address, the backing arrays by address, and the next free address for a variable. -/
structure Memory where
  buffers : Nat → BufferValue
  arrays : Nat → List Char
  next : Nat

/-- The buffer that the variable at address `p` holds: its unread portion `buf[off:]`. -/
def Memory.view (m : Memory) (p : Nat) : Buffer :=
  ⟨String.mk (((m.arrays (m.buffers p).array).take (m.buffers p).len).drop (m.buffers p).off)⟩

/-- The method `Read` through a pointer `p` to a buffer, called until `n` characters are read
or the buffer is empty: the characters are copied out of the backing array, and the field
`off` of the variable at `p` advances.  No array is written.  (A further `Read` of an empty
buffer resets `buf` and `off` of the same variable, whose unread portion is empty before and
after.) -/
def Memory.Read (m : Memory) (p : Nat) (n : Nat) : Memory :=
  { m with buffers := fun q =>
      if q = p then
        { m.buffers p with off := (m.buffers p).off + min n ((m.buffers p).len - (m.buffers p).off) }
      else m.buffers q }

/-- A variable of type `Options`: its strings, and the address of its field `body`. -/
structure OptionsVar where
  esHost : String
  body : Nat
  from_ : String
  to_ : String
  smtpHost : String
  deriving DecidableEq, Repr

/-- The options that a variable holds. -/
def OptionsVar.view (o : OptionsVar) (m : Memory) : Options :=
  ⟨o.esHost, m.view o.body, o.from_, o.to_, o.smtpHost⟩

/-- Passing `options` by value, as the call `search(options)` does: the parameter of the callee
is a new variable, at the next free address, and the value of the argument is copied into
it.  The copy of the body has the backing array of the argument. -/
def OptionsVar.pass (o : OptionsVar) (m : Memory) : OptionsVar × Memory :=
  ({ o with body := m.next },
    { m with
      buffers := fun q => if q = m.next then m.buffers o.body else m.buffers q
      next := m.next + 1 })

/-- The function `search` on a parameter that lies in memory.  Its result is the result of
`search` on the options the parameter holds.  Its one effect on memory is that of
`http.Post(url, "application/json", &options.body)`: the HTTP client reads `w.bodyRead`
characters through the pointer to the body of the parameter. -/
def searchMem (decode : String → Except String Search) (w : World) (m : Memory)
    (options : OptionsVar) : Result × Memory :=
  let result := search decode w (options.view m)
  if (options.view m).body.Len > 0 then
    (result, m.Read options.body w.bodyRead)
  else
    (result, m)

/-- The loop of `main` over the first ticks, one `World` a tick: each tick passes the variable
`options` of `main` by value to `search`, and goes on in the memory `search` leaves.  The loop
stops with the process at the first fatal error.  The result of each tick that ran is
returned, and the memory at the end. -/
def mainLoop (decode : String → Except String Search) (options : OptionsVar) :
    Memory → List World → List Result × Memory
  | m, [] => ([], m)
  | m, w :: ws =>
    let passed := options.pass m
    let called := searchMem decode w passed.2 passed.1
    match called.1.fatal with
    | some _ => ([called.1], called.2)
    | none =>
      (called.1 :: (mainLoop decode options called.2 ws).1,
        (mainLoop decode options called.2 ws).2)

/-! ## Notions of the specification: padded numbers and the shape of a request -/

/-- A number below 10000 on four decimal digits, zero-padded (the words of the
specification). -/
def fourDigits (y : Nat) : String :=
  String.mk [Nat.digitChar (y / 1000), Nat.digitChar (y / 100 % 10),
    Nat.digitChar (y / 10 % 10), Nat.digitChar (y % 10)]

/-- A number below 100 on two decimal digits, zero-padded (the words of the specification). -/
def twoDigits (n : Nat) : String :=
  String.mk [Nat.digitChar (n / 10), Nat.digitChar (n % 10)]

/-- The method and the body of a request, without its URL. -/
def Request.methodAndBody : Request → String × Option String
  | Request.post _ _ body => ("POST", some body)
  | Request.get _ => ("GET", none)

/-! ## Sample inputs -/

/-- Sample options: no custom body. -/
def sampleOptions : Options := ⟨"es", ⟨""⟩, "healthy@box", "ops@box", "mx"⟩

/-- Sample options with a custom body. -/
def sampleBodyOptions : Options :=
  ⟨"es", ⟨"\x7b\"query\":\"5m\"\x7d"⟩, "healthy@box", "ops@box", "mx"⟩

/-- A sample decoder: every body decodes to the given total and messages. -/
def sampleDecode (total : Int) (messages : List String) : String → Except String Search :=
  fun _ => .ok ⟨⟨total, messages.map (fun m => ⟨⟨m⟩⟩)⟩⟩

/-- A sample world: 9 March 2014, a response with the given status, a relay that accepts the
mail, and a request body read to its end. -/
def sampleWorld (status : Int) : World :=
  ⟨⟨2014, 3, 9⟩, .ok ⟨status, "\x7b\x7d"⟩, none, 1000⟩

/-- Sample arguments: an interval of five minutes and a template file. -/
def sampleArgs : Args := fun name =>
  if name = "<interval>" then some "5m"
  else if name = "--es-search" then some "query.json"
  else none

/-- The environment of the failing start: the template file is empty, `text/template` parses
the empty text, and executing the template writes nothing and returns no error. -/
def emptyFileEnv : Env :=
  ⟨.ok sampleArgs, fun _ => .ok 300000000000, fun _ => .ok "",
    fun _ => .ok (fun _ => ("", none)), .ok "box", .ok "ops"⟩

/-- A sample memory: the variable `options.body` of `main` at address 0 holds the 14
characters of the backing array at address 7, and the next free address is 1. -/
def sampleMemory : Memory :=
  ⟨fun _ => ⟨7, 14, 0⟩, fun _ => "\x7b\"query\":\"5m\"\x7d".data, 1⟩

/-- The variable `options` of `main` in the sample memory. -/
def sampleOptionsVar : OptionsVar := ⟨"es", 0, "healthy@box", "ops@box", "mx"⟩

/-! ## Lemmas: decimal numbers -/

theorem formatBits_acc (fuel u : Nat) (a : List Char) :
    formatBits fuel u a = formatBits fuel u [] ++ a := by
  induction fuel generalizing u a with
  | zero => simp [formatBits]
  | succ fuel ih =>
    simp only [formatBits]
    split
    · simp
    · rw [ih (u / 10) (Nat.digitChar (u % 10) :: a), ih (u / 10) [Nat.digitChar (u % 10)]]
      simp

theorem formatBits_fuel (fuel fuel' u : Nat) (a : List Char) (h : u < fuel) (h' : u < fuel') :
    formatBits fuel u a = formatBits fuel' u a := by
  induction fuel generalizing u a fuel' with
  | zero => omega
  | succ fuel ih =>
    cases fuel' with
    | zero => omega
    | succ fuel' =>
      simp only [formatBits]
      split
      · rfl
      · exact ih fuel' (u / 10) _ (by omega) (by omega)

theorem decimal_of_lt (u : Nat) (h : u < 10) : decimal u = [Nat.digitChar u] := by
  simp [decimal, formatBits, h]

theorem decimal_of_ge (u : Nat) (h : 10 ≤ u) :
    decimal u = decimal (u / 10) ++ [Nat.digitChar (u % 10)] := by
  have h1 : ¬ u < 10 := by omega
  have step : formatBits (u + 1) u [] = formatBits u (u / 10) [Nat.digitChar (u % 10)] := by
    simp only [formatBits, h1, if_false]
  unfold decimal
  rw [step, formatBits_acc, formatBits_fuel u (u / 10 + 1) (u / 10) [] (by omega) (by omega)]

theorem formatBits_eq_toDigitsCore (fuel u : Nat) (a : List Char) :
    formatBits fuel u a = Nat.toDigitsCore 10 fuel u a := by
  induction fuel generalizing u a with
  | zero => simp [formatBits, Nat.toDigitsCore]
  | succ fuel ih =>
    simp only [formatBits, Nat.toDigitsCore]
    by_cases h : u < 10
    · have h0 : u / 10 = 0 := by omega
      have hm : u % 10 = u := by omega
      simp [h, h0, hm]
    · have h0 : ¬ u / 10 = 0 := by omega
      simp [h, h0, ih]

theorem decimal_eq_toDigits (u : Nat) : decimal u = Nat.toDigits 10 u := by
  simp [decimal, Nat.toDigits, formatBits_eq_toDigitsCore]

theorem FormatInt_eq_toString (i : Int) : FormatInt i = toString i := by
  cases i with
  | ofNat n =>
    have h : ¬ (Int.ofNat n < 0) := by simp
    simp only [FormatInt, h, if_false]
    show String.mk (decimal n) = toString n
    rw [decimal_eq_toDigits]; rfl
  | negSucc n =>
    have h : Int.negSucc n < 0 := Int.negSucc_lt_zero n
    simp only [FormatInt, h, if_true]
    show "-" ++ String.mk (decimal (n + 1)) = "-" ++ toString (n + 1)
    rw [decimal_eq_toDigits]; rfl

theorem digitChar_ne_newline : ∀ n < 10, Nat.digitChar n ≠ '\n' := by
  decide

theorem formatBits_ne_newline (fuel u : Nat) (a : List Char) (ha : ∀ c ∈ a, c ≠ '\n') :
    ∀ c ∈ formatBits fuel u a, c ≠ '\n' := by
  induction fuel generalizing u a with
  | zero => simpa [formatBits] using ha
  | succ fuel ih =>
    simp only [formatBits]
    split
    · rename_i h
      intro c hc
      rcases List.mem_cons.1 hc with rfl | hc
      · exact digitChar_ne_newline u h
      · exact ha c hc
    · apply ih
      intro c hc
      rcases List.mem_cons.1 hc with rfl | hc
      · exact digitChar_ne_newline (u % 10) (Nat.mod_lt _ (by decide))
      · exact ha c hc

theorem decimal_ne_newline (u : Nat) : ∀ c ∈ decimal u, c ≠ '\n' :=
  formatBits_ne_newline _ _ _ (by simp)

theorem FormatInt_ne_newline (i : Int) : ∀ c ∈ (FormatInt i).data, c ≠ '\n' := by
  unfold FormatInt
  split
  · intro c hc
    simp only [String.data_append, List.mem_append] at hc
    rcases hc with hc | hc
    · have : c = '-' := by simpa using hc
      subst this; decide
    · exact decimal_ne_newline _ c hc
  · exact decimal_ne_newline _

theorem Len_pos_iff (b : Buffer) : 0 < b.Len ↔ b.unread ≠ "" := by
  have := String.endPos_eq_zero b.unread
  simp only [String.endPos, String.Pos.ext_iff] at this
  simp only [Buffer.Len]
  constructor
  · intro h he; have := this.2 he; simp at this; omega
  · intro h; have : ¬ b.unread.utf8ByteSize = 0 := fun h0 => h (this.1 (by simpa using h0)); omega

/-! ## Lemmas: `send` and `search` -/

theorem writeMessages_unread (hits : List Hit) (b : Buffer) :
    (writeMessages hits b).unread = b.unread ++ joinLines (hits.map (fun hit => hit.Source.Message)) := by
  induction hits generalizing b with
  | nil => simp [writeMessages, joinLines]
  | cons hit hits ih =>
    have : writeMessages (hit :: hits) b
        = writeMessages hits (b.WriteString (hit.Source.Message ++ "\n")) := rfl
    rw [this, ih]
    simp [Buffer.WriteString, joinLines, String.append_assoc]

theorem writeMessages_String (hits : List Hit) :
    (writeMessages hits Buffer.empty).String
      = joinLines (hits.map (fun hit => hit.Source.Message)) := by
  simp [Buffer.String, writeMessages_unread, Buffer.empty]

theorem joinLines_append (xs ys : List String) :
    joinLines (xs ++ ys) = joinLines xs ++ joinLines ys := by
  induction xs with
  | nil => simp [joinLines]
  | cons x xs ih => simp [joinLines, ih, String.append_assoc]

theorem mails_send (w : World) (options : Options) (total : Int) (messages : String) :
    mails (send w options total messages).trace
      = [⟨options.smtpHost ++ ":25", options.from_, [options.to_], mailMessage total messages⟩] := by
  unfold send
  cases w.smtp <;> rfl

theorem dispatch_fields (w : World) (options : Options) :
    (dispatch w options).2.smtpHost = options.smtpHost ∧
    (dispatch w options).2.from_ = options.from_ ∧
    (dispatch w options).2.to_ = options.to_ ∧
    (dispatch w options).2.esHost = options.esHost := by
  unfold dispatch
  split <;> simp

theorem search_decoded (decode : String → Except String Search) (w : World) (options : Options)
    (body : String) (s : Search) (hhttp : w.http = .ok ⟨200, body⟩) (hdec : decode body = .ok s) :
    search decode w options =
      if s.Hits.Total > 0 then
        ⟨Event.request (dispatch w options).1 ::
            (send w (dispatch w options).2 s.Hits.Total
              (writeMessages s.Hits.Hits Buffer.empty).String).trace,
          (send w (dispatch w options).2 s.Hits.Total
              (writeMessages s.Hits.Hits Buffer.empty).String).fatal,
          (dispatch w options).2⟩
      else ⟨[Event.request (dispatch w options).1], none, (dispatch w options).2⟩ := by
  unfold search
  simp [hhttp, hdec]

theorem search_failed (decode : String → Except String Search) (w : World) (options : Options)
    (h : (∃ err, w.http = .error err) ∨
      (∃ res, w.http = .ok res ∧ (res.StatusCode ≠ 200 ∨ ∃ err, decode res.Body = .error err))) :
    ∃ f, search decode w options = ⟨[Event.request (dispatch w options).1], some f, (dispatch w options).2⟩ := by
  unfold search
  rcases h with ⟨err, h⟩ | ⟨res, h, hs | ⟨err, hd⟩⟩
  · exact ⟨Fatal.requestFailed err, by simp [h]⟩
  · exact ⟨Fatal.requestError res.StatusCode, by simp [h, hs]⟩
  · by_cases hs : res.StatusCode = 200
    · exact ⟨Fatal.decodeResponse err, by simp [h, hs, hd]⟩
    · exact ⟨Fatal.requestError res.StatusCode, by simp [h, hs]⟩

theorem requests_search (decode : String → Except String Search) (w : World) (options : Options) :
    requests (search decode w options).trace = [(dispatch w options).1] := by
  unfold search
  simp only []
  cases hh : w.http with
  | error err => simp [requests]
  | ok res =>
    by_cases hs : res.StatusCode = 200
    · cases hd : decode res.Body with
      | error err => simp [hs, hd, requests]
      | ok s =>
        by_cases ht : s.Hits.Total > 0
        · unfold send
          cases w.smtp <;> simp [hs, hd, ht, requests]
        · simp [hs, hd, ht, requests]
    · simp [hs, requests]

theorem beforeBlankLine_cons (c : Char) (rest : List Char) (hc : c ≠ '\n') :
    beforeBlankLine (c :: rest) = c :: beforeBlankLine rest := by
  rw [beforeBlankLine]
  intro tail h
  simp only [List.cons.injEq] at h
  exact fun _ => hc h

theorem beforeBlankLine_append (p rest : List Char) (hp : ∀ c ∈ p, c ≠ '\n') :
    beforeBlankLine (p ++ '\n' :: '\n' :: rest) = p := by
  induction p with
  | nil => simp [beforeBlankLine]
  | cons c p ih =>
    rw [List.cons_append, beforeBlankLine_cons c _ (hp c (List.mem_cons_self _ _)),
      ih (fun d hd => hp d (List.mem_cons_of_mem _ hd))]

theorem subjectLine_ne_newline (total : Int) :
    ∀ c ∈ ("Subject: " ++ FormatInt total ++ " service(s) unavailable").data, c ≠ '\n' := by
  intro c hc
  simp only [String.data_append, List.mem_append] at hc
  rcases hc with (hc | hc) | hc
  · have h : ∀ d ∈ "Subject: ".data, d ≠ '\n' := by decide
    exact h c hc
  · exact FormatInt_ne_newline total c hc
  · have h : ∀ d ∈ " service(s) unavailable".data, d ≠ '\n' := by decide
    exact h c hc

theorem mailMessage_eq (total : Int) (messages : String) :
    mailMessage total messages
      = "Subject: " ++ FormatInt total ++ " service(s) unavailable" ++ "\n" ++ "\n" ++ messages := by
  have h : " service(s) unavailable\n\n" = " service(s) unavailable" ++ ("\n" ++ "\n") := by decide
  simp only [mailMessage, h, String.append_assoc]

theorem headerSection_mailMessage (total : Int) (messages : String) :
    headerSection (mailMessage total messages)
      = "Subject: " ++ FormatInt total ++ " service(s) unavailable" := by
  rw [mailMessage_eq]
  unfold headerSection
  have h : ("Subject: " ++ FormatInt total ++ " service(s) unavailable" ++ "\n" ++ "\n"
      ++ messages).data
      = ("Subject: " ++ FormatInt total ++ " service(s) unavailable").data
        ++ '\n' :: '\n' :: messages.data := by
    simp [String.data_append]
  rw [h, beforeBlankLine_append _ _ (subjectLine_ne_newline total)]

theorem count_newline_joinLines (ms : List String) (h : ∀ m ∈ ms, '\n' ∉ m.data) :
    (joinLines ms).data.count '\n' = ms.length := by
  induction ms with
  | nil => simp [joinLines]
  | cons m ms ih =>
    have hm : m.data.count '\n' = 0 := List.count_eq_zero.2 (h m (List.mem_cons_self _ _))
    have hs : ("\n" : String).data = ['\n'] := rfl
    simp only [joinLines, String.data_append, List.count_append, hm, hs,
      ih (fun x hx => h x (List.mem_cons_of_mem _ hx)), List.length_cons]
    simp
    omega

/-! ## Lemmas: dates and requests -/

theorem decimal_two (n : Nat) (h1 : 10 ≤ n) (h2 : n < 100) :
    decimal n = [Nat.digitChar (n / 10), Nat.digitChar (n % 10)] := by
  rw [decimal_of_ge n h1, decimal_of_lt (n / 10) (by omega)]
  rfl

theorem decimal_three (n : Nat) (h1 : 100 ≤ n) (h2 : n < 1000) :
    decimal n = [Nat.digitChar (n / 100), Nat.digitChar (n / 10 % 10), Nat.digitChar (n % 10)] := by
  rw [decimal_of_ge n (by omega), decimal_two (n / 10) (by omega) (by omega)]
  have : n / 10 / 10 = n / 100 := by omega
  rw [this]
  rfl

theorem decimal_four (n : Nat) (h1 : 1000 ≤ n) (h2 : n < 10000) :
    decimal n = [Nat.digitChar (n / 1000), Nat.digitChar (n / 100 % 10),
      Nat.digitChar (n / 10 % 10), Nat.digitChar (n % 10)] := by
  rw [decimal_of_ge n (by omega), decimal_three (n / 10) (by omega) (by omega)]
  have e1 : n / 10 / 100 = n / 1000 := by omega
  have e2 : n / 10 / 10 % 10 = n / 100 % 10 := by omega
  rw [e1, e2]
  rfl

theorem appendInt_natCast (n width : Nat) :
    appendInt (n : Int) width
      = String.mk (List.replicate (width - (decimal n).length) '0' ++ decimal n) := by
  have h : ¬ ((n : Int) < 0) := by omega
  simp [appendInt, h]

theorem appendInt_two (n : Nat) (h : n < 100) : appendInt (n : Int) 2 = twoDigits n := by
  rw [appendInt_natCast]
  by_cases h1 : n < 10
  · have e1 : n / 10 = 0 := by omega
    have e2 : n % 10 = n := by omega
    rw [decimal_of_lt n h1, twoDigits, e1, e2]
    rfl
  · rw [decimal_two n (by omega) h, twoDigits]
    rfl

theorem appendInt_four (n : Nat) (h : n < 10000) : appendInt (n : Int) 4 = fourDigits n := by
  rw [appendInt_natCast]
  by_cases h1 : n < 10
  · have e1 : n / 1000 = 0 := by omega
    have e2 : n / 100 % 10 = 0 := by omega
    have e3 : n / 10 % 10 = 0 := by omega
    have e4 : n % 10 = n := by omega
    rw [decimal_of_lt n h1, fourDigits, e1, e2, e3, e4]
    rfl
  · by_cases h2 : n < 100
    · have e1 : n / 1000 = 0 := by omega
      have e2 : n / 100 % 10 = 0 := by omega
      have e3 : n / 10 % 10 = n / 10 := by omega
      rw [decimal_two n (by omega) h2, fourDigits, e1, e2, e3]
      rfl
    · by_cases h3 : n < 1000
      · have e1 : n / 1000 = 0 := by omega
        have e2 : n / 100 % 10 = n / 100 := by omega
        rw [decimal_three n (by omega) h3, fourDigits, e1, e2]
        rfl
      · rw [decimal_four n (by omega) h, fourDigits]
        rfl

theorem dispatch_request (w : World) (options : Options) :
    (dispatch w options).1 =
      if options.body.unread ≠ "" then
        Request.post (baseURL w options) "application/json" options.body.unread
      else Request.get (baseURL w options ++ "?q=response:5*") := by
  unfold dispatch
  by_cases h : options.body.unread = ""
  · have hl : ¬ (options.body.Len > 0) := fun hl => (Len_pos_iff _).1 hl h
    simp [h, hl]
  · have hl : options.body.Len > 0 := (Len_pos_iff _).2 h
    simp [h, hl]

theorem mails_search (decode : String → Except String Search) (w : World) (options : Options) :
    mails (search decode w options).trace = [] ∨
      ∃ total messages, mails (search decode w options).trace
        = [⟨options.smtpHost ++ ":25", options.from_, [options.to_],
            mailMessage total messages⟩] := by
  cases hh : w.http with
  | error err =>
    obtain ⟨f, hf⟩ := search_failed decode w options (Or.inl ⟨err, hh⟩)
    exact Or.inl (by rw [hf]; rfl)
  | ok res =>
    by_cases hs : res.StatusCode = 200
    · cases hd : decode res.Body with
      | error err =>
        obtain ⟨f, hf⟩ := search_failed decode w options
          (Or.inr ⟨res, hh, Or.inr ⟨err, hd⟩⟩)
        exact Or.inl (by rw [hf]; rfl)
      | ok s =>
        have hres : w.http = .ok ⟨200, res.Body⟩ := by rw [hh, ← hs]
        rw [search_decoded decode w options res.Body s hres hd]
        by_cases ht : s.Hits.Total > 0
        · refine Or.inr ⟨s.Hits.Total, (writeMessages s.Hits.Hits Buffer.empty).String, ?_⟩
          obtain ⟨h1, h2, h3, _⟩ := dispatch_fields w options
          simp only [ht, if_true, mails, mails_send, h1, h2, h3]
        · exact Or.inl (by simp [ht, mails])
    · obtain ⟨f, hf⟩ := search_failed decode w options (Or.inr ⟨res, hh, Or.inl hs⟩)
      exact Or.inl (by rw [hf]; rfl)

theorem finish_body (env : Env) (args : Args) (d : Int) (esHost : String) (body : Buffer)
    (duration : Int) (options : Options)
    (h : finish env args d esHost body = Startup.ok duration options) : options.body = body := by
  unfold finish at h
  cases hh : env.Hostname with
  | error err => simp [hh] at h
  | ok hostname =>
    cases hu : env.Username with
    | error err => simp [hh, hu] at h
    | ok username =>
      simp only [hh, hu, Startup.ok.injEq] at h
      rw [← h.2]

theorem search_options (decode : String → Except String Search) (w : World)
    (options : Options) : (search decode w options).options = (dispatch w options).2 := by
  cases hh : w.http with
  | error err =>
    obtain ⟨f, hf⟩ := search_failed decode w options (Or.inl ⟨err, hh⟩)
    rw [hf]
  | ok res =>
    by_cases hs : res.StatusCode = 200
    · cases hd : decode res.Body with
      | error err =>
        obtain ⟨f, hf⟩ := search_failed decode w options
          (Or.inr ⟨res, hh, Or.inr ⟨err, hd⟩⟩)
        rw [hf]
      | ok s =>
        have hres : w.http = .ok ⟨200, res.Body⟩ := by rw [hh, ← hs]
        rw [search_decoded decode w options res.Body s hres hd]
        split <;> rfl
    · obtain ⟨f, hf⟩ := search_failed decode w options (Or.inr ⟨res, hh, Or.inl hs⟩)
      rw [hf]

theorem setup_body (env : Env) (args : Args) (interval : String) (duration : Int)
    (options : Options) (hargs : env.args = .ok args) (hint : args "<interval>" = some interval)
    (hset : setup env = Startup.ok duration options) :
    (args "--es-search" = none → options.body.unread = "") ∧
    (∀ path data tmpl, args "--es-search" = some path → env.ReadFile path = .ok data →
      env.Parse data = .ok tmpl →
      options.body.unread = (tmpl (SearchTemplate.mk interval)).1) := by
  unfold setup at hset
  simp only [hargs, hint] at hset
  cases hd : env.ParseDuration interval with
  | error err => simp [hd] at hset
  | ok d =>
    simp only [hd] at hset
    constructor
    · intro hnone
      simp only [hnone] at hset
      rw [finish_body _ _ _ _ _ _ _ hset]
      rfl
    · intro path data tmpl hpath hfile hparse
      simp only [hpath, hfile, hparse] at hset
      cases he : (tmpl (SearchTemplate.mk interval)).2 with
      | some err => simp [he] at hset
      | none =>
        simp only [he] at hset
        rw [finish_body _ _ _ _ _ _ _ hset]
        simp [Buffer.WriteString, Buffer.empty]

theorem empty_template_output_issues_get (decode : String → Except String Search) (env : Env)
    (args : Args) (interval : String) (duration : Int) (options : Options) (w : World)
    (path data : String) (tmpl : Template)
    (hargs : env.args = .ok args) (hint : args "<interval>" = some interval)
    (hset : setup env = Startup.ok duration options)
    (hpath : args "--es-search" = some path) (hfile : env.ReadFile path = .ok data)
    (hparse : env.Parse data = .ok tmpl)
    (hempty : (tmpl (SearchTemplate.mk interval)).1 = "") :
    requests (search decode w options).trace
      = [Request.get (baseURL w options ++ "?q=response:5*")] := by
  have hbody := (setup_body env args interval duration options hargs hint hset).2
    path data tmpl hpath hfile hparse
  rw [requests_search, dispatch_request, hbody, hempty]
  simp

/-! ## Lemmas: memory -/

theorem view_Read_ne (m : Memory) (p q n : Nat) (h : q ≠ p) :
    (m.Read p n).view q = m.view q := by
  simp [Memory.view, Memory.Read, h]

theorem view_Read_self (m : Memory) (p n : Nat) :
    (m.Read p n).view p = (m.view p).Read n := by
  simp only [Memory.view, Memory.Read, Buffer.Read, if_true, List.drop_drop]
  congr 2
  by_cases h : n ≤ (m.buffers p).len - (m.buffers p).off
  · rw [Nat.min_eq_left h, Nat.add_comm]
  · have hlen : ((m.arrays (m.buffers p).array).take (m.buffers p).len).length
        ≤ (m.buffers p).len := by simp [List.length_take]
    rw [Nat.min_eq_right (by omega), List.drop_eq_nil_of_le (by omega),
      List.drop_eq_nil_of_le (by omega)]

theorem pass_view_parameter (o : OptionsVar) (m : Memory) :
    (o.pass m).1.view (o.pass m).2 = o.view m := by
  simp [OptionsVar.pass, OptionsVar.view, Memory.view]

theorem pass_view_argument (o : OptionsVar) (m : Memory) (p : Nat) (h : p < m.next) :
    (o.pass m).2.view p = m.view p := by
  have hne : p ≠ m.next := by omega
  simp [OptionsVar.pass, Memory.view, hne]

theorem searchMem_result (decode : String → Except String Search) (w : World) (m : Memory)
    (o : OptionsVar) : (searchMem decode w m o).1 = search decode w (o.view m) := by
  unfold searchMem
  split <;> rfl

theorem searchMem_next (decode : String → Except String Search) (w : World) (m : Memory)
    (o : OptionsVar) : (searchMem decode w m o).2.next = m.next := by
  unfold searchMem
  split <;> rfl

theorem searchMem_view_ne (decode : String → Except String Search) (w : World) (m : Memory)
    (o : OptionsVar) (q : Nat) (h : q ≠ o.body) :
    (searchMem decode w m o).2.view q = m.view q := by
  unfold searchMem
  split
  · exact view_Read_ne m o.body q w.bodyRead h
  · rfl

theorem searchMem_view_parameter (decode : String → Except String Search) (w : World)
    (m : Memory) (o : OptionsVar) :
    o.view (searchMem decode w m o).2 = (search decode w (o.view m)).options := by
  rw [search_options]
  unfold searchMem dispatch
  split
  · simp only [OptionsVar.view, view_Read_self]
  · rfl

theorem tick_frame (decode : String → Except String Search) (w : World) (m : Memory)
    (o : OptionsVar) (h : o.body < m.next) :
    (searchMem decode w (o.pass m).2 (o.pass m).1).1 = search decode w (o.view m) ∧
    o.view (searchMem decode w (o.pass m).2 (o.pass m).1).2 = o.view m ∧
    o.body < (searchMem decode w (o.pass m).2 (o.pass m).1).2.next := by
  refine ⟨?_, ?_, ?_⟩
  · rw [searchMem_result, pass_view_parameter]
  · have hne : o.body ≠ (o.pass m).1.body := by
      show o.body ≠ m.next
      omega
    have h1 := searchMem_view_ne decode w (o.pass m).2 (o.pass m).1 o.body hne
    have h2 := pass_view_argument o m o.body h
    simp only [OptionsVar.view, h1, h2]
  · rw [searchMem_next]
    show o.body < m.next + 1
    omega

theorem mainLoop_view (decode : String → Except String Search) (o : OptionsVar)
    (ws : List World) : ∀ (m : Memory), o.body < m.next →
    o.view (mainLoop decode o m ws).2 = o.view m := by
  induction ws with
  | nil => intro m _; rfl
  | cons w ws ih =>
    intro m h
    obtain ⟨_, h2, h3⟩ := tick_frame decode w m o h
    unfold mainLoop
    simp only []
    split
    · exact h2
    · rw [ih _ h3, h2]

theorem mainLoop_results (decode : String → Except String Search) (o : OptionsVar)
    (ws : List World) : ∀ (m : Memory), o.body < m.next →
    ∀ r ∈ (mainLoop decode o m ws).1, ∃ w ∈ ws, r = search decode w (o.view m) := by
  induction ws with
  | nil => intro m _ r hr; simp [mainLoop] at hr
  | cons w ws ih =>
    intro m h r hr
    obtain ⟨h1, h2, h3⟩ := tick_frame decode w m o h
    unfold mainLoop at hr
    simp only [] at hr
    split at hr
    · simp only [List.mem_singleton] at hr
      exact ⟨w, List.mem_cons_self _ _, hr.trans h1⟩
    · rcases List.mem_cons.1 hr with hr | hr
      · exact ⟨w, List.mem_cons_self _ _, hr.trans h1⟩
      · obtain ⟨w', hw', e⟩ := ih _ h3 r hr
        exact ⟨w', List.mem_cons_of_mem _ hw', by rw [e, h2]⟩

theorem mainLoop_length (decode : String → Except String Search) (o : OptionsVar)
    (ws : List World) : ∀ (m : Memory),
    (∀ r ∈ (mainLoop decode o m ws).1, r.fatal = none) →
    (mainLoop decode o m ws).1.length = ws.length := by
  induction ws with
  | nil => intro m _; rfl
  | cons w ws ih =>
    intro m h
    unfold mainLoop at h ⊢
    simp only [] at h ⊢
    split at h
    · rename_i f hf
      have := h _ (List.mem_singleton.2 rfl)
      rw [hf] at this
      cases this
    · rename_i hf
      simp only [hf, List.length_cons, Nat.add_right_cancel_iff]
      exact ih _ (fun r hr => h r (List.mem_cons_of_mem _ hr))

/-! ## The claims -/

/-- C1: for every successfully decoded search response (status 200, body decoded) with any total
and any list of hits, `search` calls `send` exactly once, with that total, when `total > 0`, and
never when `total <= 0`: the trace is the request followed by the trace of that one call of
`send`, whose single mail carries the total in its subject, or the request alone. -/
theorem search_sends_once_iff_total_positive (decode : String → Except String Search)
    (w : World) (options : Options) (body : String) (total : Int) (hits : List Hit)
    (hhttp : w.http = .ok ⟨200, body⟩) (hdec : decode body = .ok ⟨⟨total, hits⟩⟩) :
    (search decode w options).trace =
      (if total > 0 then
        Event.request (dispatch w options).1 ::
          (send w (dispatch w options).2 total (writeMessages hits Buffer.empty).String).trace
      else [Event.request (dispatch w options).1]) ∧
    mails (search decode w options).trace =
      (if total > 0 then
        [⟨options.smtpHost ++ ":25", options.from_, [options.to_],
          mailMessage total (writeMessages hits Buffer.empty).String⟩]
      else []) := by
  rw [search_decoded decode w options body _ hhttp hdec]
  obtain ⟨h1, h2, h3, _⟩ := dispatch_fields w options
  by_cases ht : total > 0
  · simp only [ht, if_true, mails, mails_send, h1, h2, h3, and_self]
  · simp only [ht, if_false, mails, and_self]

/-- A total of 2 sends one mail; totals of 0 and of -3 send none. -/
theorem search_sends_once_iff_total_positive_witness :
    (sampleWorld 200).http = .ok ⟨200, "\x7b\x7d"⟩ ∧
    sampleDecode 2 ["a", "b"] "\x7b\x7d" = .ok ⟨⟨2, [⟨⟨"a"⟩⟩, ⟨⟨"b"⟩⟩]⟩⟩ ∧
    mails (search (sampleDecode 2 ["a", "b"]) (sampleWorld 200) sampleOptions).trace
      = [⟨"mx:25", "healthy@box", ["ops@box"], "Subject: 2 service(s) unavailable\n\na\nb\n"⟩] ∧
    mails (search (sampleDecode 0 ["a"]) (sampleWorld 200) sampleOptions).trace = [] ∧
    mails (search (sampleDecode (-3) ["a"]) (sampleWorld 200) sampleOptions).trace = [] :=
  ⟨rfl, rfl,
   (search_sends_once_iff_total_positive (sampleDecode 2 ["a", "b"]) (sampleWorld 200)
      sampleOptions "\x7b\x7d" 2 [⟨⟨"a"⟩⟩, ⟨⟨"b"⟩⟩] rfl rfl).2.trans (by decide),
   (search_sends_once_iff_total_positive (sampleDecode 0 ["a"]) (sampleWorld 200)
      sampleOptions "\x7b\x7d" 0 [⟨⟨"a"⟩⟩] rfl rfl).2.trans (by decide),
   (search_sends_once_iff_total_positive (sampleDecode (-3) ["a"]) (sampleWorld 200)
      sampleOptions "\x7b\x7d" (-3) [⟨⟨"a"⟩⟩] rfl rfl).2.trans (by decide)⟩

/-- C2: for every total and every messages string, the mail message `send` builds is exactly
`"Subject: "`, the base-10 decimal string of the total, `" service(s) unavailable"`, a newline, a
second newline, and the messages with nothing after them; `send` hands that one message to the
relay at port 25. -/
theorem send_builds_subject_blank_line_messages (w : World) (options : Options) (total : Int)
    (messages : String) :
    mails (send w options total messages).trace =
      [⟨options.smtpHost ++ ":25", options.from_, [options.to_],
        "Subject: " ++ toString total ++ " service(s) unavailable" ++ "\n" ++ "\n"
          ++ messages⟩] := by
  rw [mails_send, mailMessage_eq, FormatInt_eq_toString]

/-- C3: for every list of hits with `total > 0`, the messages text `search` passes to `send` is
the concatenation, in the order of the hits, of each hit's message followed by one newline (the
empty string for no hits), and a hit whose message is the empty string contributes exactly one
newline. -/
theorem messages_text_is_each_message_then_newline (decode : String → Except String Search)
    (w : World) (options : Options) (body : String) (total : Int) (hits : List Hit)
    (hhttp : w.http = .ok ⟨200, body⟩) (hdec : decode body = .ok ⟨⟨total, hits⟩⟩)
    (hpos : total > 0) :
    (search decode w options).trace =
      Event.request (dispatch w options).1 ::
        (send w (dispatch w options).2 total
          (joinLines (hits.map (fun hit => hit.Source.Message)))).trace ∧
    mails (search decode w options).trace =
      [⟨options.smtpHost ++ ":25", options.from_, [options.to_],
        "Subject: " ++ toString total ++ " service(s) unavailable" ++ "\n" ++ "\n"
          ++ joinLines (hits.map (fun hit => hit.Source.Message))⟩] ∧
    (∀ (before after : List Hit), hits = before ++ ⟨⟨""⟩⟩ :: after →
      joinLines (hits.map (fun hit => hit.Source.Message))
        = joinLines (before.map (fun hit => hit.Source.Message)) ++ "\n"
          ++ joinLines (after.map (fun hit => hit.Source.Message))) := by
  rw [search_decoded decode w options body _ hhttp hdec]
  obtain ⟨h1, h2, h3, _⟩ := dispatch_fields w options
  refine ⟨?_, ?_, ?_⟩
  · simp only [hpos, if_true, writeMessages_String]
  · simp only [hpos, if_true, mails, mails_send, h1, h2, h3, writeMessages_String,
      mailMessage_eq, FormatInt_eq_toString]
  · intro before after h
    subst h
    simp [joinLines_append, joinLines, String.append_assoc]

/-- A total of 2 with the messages `a` and `b` gives the subject `2 service(s) unavailable` and
the body of the two lines `a` and `b`; a hit without message gives an empty line. -/
theorem messages_text_is_each_message_then_newline_witness :
    (sampleWorld 200).http = .ok ⟨200, "\x7b\x7d"⟩ ∧
    sampleDecode 2 ["a", "b"] "\x7b\x7d" = .ok ⟨⟨2, [⟨⟨"a"⟩⟩, ⟨⟨"b"⟩⟩]⟩⟩ ∧
    (2 : Int) > 0 ∧
    mails (search (sampleDecode 2 ["a", "b"]) (sampleWorld 200) sampleOptions).trace
      = [⟨"mx:25", "healthy@box", ["ops@box"], "Subject: 2 service(s) unavailable\n\na\nb\n"⟩] ∧
    mails (search (sampleDecode 3 ["a", "", "b"]) (sampleWorld 200) sampleOptions).trace
      = [⟨"mx:25", "healthy@box", ["ops@box"],
          "Subject: 3 service(s) unavailable\n\na\n\nb\n"⟩] :=
  ⟨rfl, rfl, by decide,
   (messages_text_is_each_message_then_newline (sampleDecode 2 ["a", "b"]) (sampleWorld 200)
      sampleOptions "\x7b\x7d" 2 [⟨⟨"a"⟩⟩, ⟨⟨"b"⟩⟩] rfl rfl (by decide)).2.1.trans (by decide),
   (messages_text_is_each_message_then_newline (sampleDecode 3 ["a", "", "b"])
      (sampleWorld 200) sampleOptions "\x7b\x7d" 3 [⟨⟨"a"⟩⟩, ⟨⟨""⟩⟩, ⟨⟨"b"⟩⟩] rfl rfl
      (by decide)).2.1.trans (by decide)⟩

/-- C4, at the failing input: the arguments give a template path, the template file is empty,
the start of `main` succeeds with an empty body, and the request `search` issues is the GET
with the default filter, not a POST of the file.  The claim, and the usage text of the
program, have the given file as the request body, and the default only when no file is
given. -/
theorem template_path_with_empty_file_issues_get :
    sampleArgs "--es-search" = some "query.json" ∧
    emptyFileEnv.ReadFile "query.json" = .ok "" ∧
    setup emptyFileEnv
      = Startup.ok 300000000000 ⟨"localhost", ⟨""⟩, "healthy@box", "ops@box", "localhost"⟩ ∧
    requests (search (sampleDecode 0 []) (sampleWorld 200)
        ⟨"localhost", ⟨""⟩, "healthy@box", "ops@box", "localhost"⟩).trace
      = [Request.get "http://localhost:9200/logstash-2014.03.09/_search?q=response:5*"] ∧
    ¬ ∃ url contentType body,
      requests (search (sampleDecode 0 []) (sampleWorld 200)
        ⟨"localhost", ⟨""⟩, "healthy@box", "ops@box", "localhost"⟩).trace
        = [Request.post url contentType body] := by
  refine ⟨by decide, rfl, by decide, by decide, ?_⟩
  rintro ⟨url, contentType, body, h⟩
  have hget := empty_template_output_issues_get (sampleDecode 0 []) emptyFileEnv sampleArgs
    "5m" 300000000000 ⟨"localhost", ⟨""⟩, "healthy@box", "ops@box", "localhost"⟩
    (sampleWorld 200) "query.json" "" (fun _ => ("", none)) rfl (by decide) (by decide)
    (by decide) rfl rfl rfl
  rw [hget] at h
  simp at h

/-- C5: for every options value, `search` issues an HTTP POST with content type
`application/json`, to the base URL, carrying exactly the bytes of `options.body`, if and only
if `options.body` is non-empty; otherwise it issues an HTTP GET to the base URL followed by
exactly `?q=response:5*`.  Exactly one request is issued per invocation. -/
theorem search_issues_one_post_or_get (decode : String → Except String Search) (w : World)
    (options : Options) :
    requests (search decode w options).trace =
      [if options.body.unread ≠ "" then
        Request.post (baseURL w options) "application/json" options.body.unread
      else Request.get (baseURL w options ++ "?q=response:5*")] := by
  rw [requests_search, dispatch_request]

/-- A custom body is posted as it is; without one the default filter is queried. -/
theorem search_issues_one_post_or_get_witness :
    requests (search (sampleDecode 0 []) (sampleWorld 200) sampleBodyOptions).trace
      = [Request.post "http://es:9200/logstash-2014.03.09/_search" "application/json"
          "\x7b\"query\":\"5m\"\x7d"] ∧
    requests (search (sampleDecode 0 []) (sampleWorld 200) sampleOptions).trace
      = [Request.get "http://es:9200/logstash-2014.03.09/_search?q=response:5*"] :=
  ⟨(search_issues_one_post_or_get (sampleDecode 0 []) (sampleWorld 200)
      sampleBodyOptions).trans (by decide),
   (search_issues_one_post_or_get (sampleDecode 0 []) (sampleWorld 200)
      sampleOptions).trans (by decide)⟩

/-- C6: for every search host and every current date with year `y` (`0 <= y <= 9999`), month
`m` and day `d`, the base URL `search` builds is exactly `http://`, the host,
`:9200/logstash-`, the year zero-padded to four digits, a dot, the month zero-padded to two
digits, a dot, the day zero-padded to two digits, and `/_search`; the date is the one of the
world of that invocation, and the request of the invocation goes to that URL. -/
theorem base_url_carries_padded_date (decode : String → Except String Search) (w : World)
    (options : Options) (y m d : Nat) (hy : y ≤ 9999) (hm : m < 100) (hd : d < 100)
    (hnow : w.now = ⟨y, m, d⟩) :
    baseURL w options =
      "http://" ++ options.esHost ++ ":9200/logstash-" ++ fourDigits y ++ "." ++ twoDigits m
        ++ "." ++ twoDigits d ++ "/_search" ∧
    requests (search decode w options).trace =
      [if options.body.unread ≠ "" then
        Request.post ("http://" ++ options.esHost ++ ":9200/logstash-" ++ fourDigits y ++ "."
          ++ twoDigits m ++ "." ++ twoDigits d ++ "/_search") "application/json"
          options.body.unread
      else Request.get ("http://" ++ options.esHost ++ ":9200/logstash-" ++ fourDigits y ++ "."
          ++ twoDigits m ++ "." ++ twoDigits d ++ "/_search" ++ "?q=response:5*")] := by
  have hbase : baseURL w options =
      "http://" ++ options.esHost ++ ":9200/logstash-" ++ fourDigits y ++ "." ++ twoDigits m
        ++ "." ++ twoDigits d ++ "/_search" := by
    simp only [baseURL, Time.Format, hnow, appendInt_four y (by omega), appendInt_two m hm,
      appendInt_two d hd, String.append_assoc]
  exact ⟨hbase, by rw [requests_search, dispatch_request, hbase]⟩

/-- On 9 March 2014 the index is `logstash-2014.03.09`, and in the year 33 it is
`logstash-0033.12.25`. -/
theorem base_url_carries_padded_date_witness :
    2014 ≤ 9999 ∧ 3 < 100 ∧ 9 < 100 ∧ (sampleWorld 200).now = ⟨2014, 3, 9⟩ ∧
    baseURL (sampleWorld 200) sampleOptions = "http://es:9200/logstash-2014.03.09/_search" ∧
    baseURL ⟨⟨33, 12, 25⟩, .ok ⟨200, ""⟩, none, 0⟩ sampleOptions
      = "http://es:9200/logstash-0033.12.25/_search" :=
  ⟨by decide, by decide, by decide, rfl,
   (base_url_carries_padded_date (sampleDecode 0 []) (sampleWorld 200) sampleOptions 2014 3 9
      (by decide) (by decide) (by decide) rfl).1.trans (by decide),
   (base_url_carries_padded_date (sampleDecode 0 []) ⟨⟨33, 12, 25⟩, .ok ⟨200, ""⟩, none, 0⟩
      sampleOptions 33 12 25 (by decide) (by decide) (by decide) rfl).1.trans (by decide)⟩

/-- C7: for every invocation of `search` in which the request returns a transport error, or the
response status is not 200, or the response body fails to decode, the cycle ends in the fatal
outcome, after the request alone, and `send` is never called, whatever the body would decode
to. -/
theorem failed_cycle_is_fatal_and_sends_nothing (decode : String → Except String Search)
    (w : World) (options : Options)
    (h : (∃ err, w.http = .error err) ∨
      (∃ res, w.http = .ok res ∧
        (res.StatusCode ≠ 200 ∨ ∃ err, decode res.Body = .error err))) :
    (∃ f, (search decode w options).fatal = some f) ∧
    (search decode w options).trace = [Event.request (dispatch w options).1] ∧
    mails (search decode w options).trace = [] := by
  obtain ⟨f, hf⟩ := search_failed decode w options h
  rw [hf]
  exact ⟨⟨f, rfl⟩, rfl, rfl⟩

/-- A response with status 500 whose body would decode to a total of 5 is fatal and sends
nothing; so are a refused connection and a body that does not decode. -/
theorem failed_cycle_is_fatal_and_sends_nothing_witness :
    ((sampleWorld 500).http = .ok ⟨500, "\x7b\x7d"⟩ ∧ (500 : Int) ≠ 200 ∧
      sampleDecode 5 ["a"] "\x7b\x7d" = .ok ⟨⟨5, [⟨⟨"a"⟩⟩]⟩⟩) ∧
    ((search (sampleDecode 5 ["a"]) (sampleWorld 500) sampleOptions).fatal
        = some (Fatal.requestError 500) ∧
      mails (search (sampleDecode 5 ["a"]) (sampleWorld 500) sampleOptions).trace = []) ∧
    ((search (sampleDecode 5 ["a"]) ⟨⟨2014, 3, 9⟩, .error "connection refused", none, 0⟩
        sampleOptions).fatal = some (Fatal.requestFailed "connection refused") ∧
      mails (search (sampleDecode 5 ["a"]) ⟨⟨2014, 3, 9⟩, .error "connection refused", none, 0⟩
        sampleOptions).trace = []) ∧
    ((search (fun _ => .error "EOF") (sampleWorld 200) sampleOptions).fatal
        = some (Fatal.decodeResponse "EOF") ∧
      mails (search (fun _ => .error "EOF") (sampleWorld 200) sampleOptions).trace = []) :=
  ⟨⟨rfl, by decide, rfl⟩,
   ⟨by decide, (failed_cycle_is_fatal_and_sends_nothing (sampleDecode 5 ["a"]) (sampleWorld 500)
      sampleOptions (Or.inr ⟨⟨500, "\x7b\x7d"⟩, rfl, Or.inl (by decide)⟩)).2.2⟩,
   ⟨by decide, (failed_cycle_is_fatal_and_sends_nothing (sampleDecode 5 ["a"])
      ⟨⟨2014, 3, 9⟩, .error "connection refused", none, 0⟩ sampleOptions
      (Or.inl ⟨"connection refused", rfl⟩)).2.2⟩,
   ⟨by decide, (failed_cycle_is_fatal_and_sends_nothing (fun _ => .error "EOF")
      (sampleWorld 200) sampleOptions
      (Or.inr ⟨⟨200, "\x7b\x7d"⟩, rfl, Or.inr ⟨"EOF", rfl⟩⟩)).2.2⟩⟩

/-- C8: for every `total > 0` and every hits list of any length (shorter than the total, empty,
or longer), the notification is still sent, its subject carries the backend-reported total
unchanged, and its body has exactly one entry for each returned hit: it is made of the
`hits.length` messages of the hits, whatever the total, and when no message holds a newline it
has `hits.length` lines.  The two counts are not reconciled. -/
theorem notification_keeps_total_and_returned_hits (decode : String → Except String Search)
    (w : World) (options : Options) (body : String) (total : Int) (hits : List Hit)
    (hhttp : w.http = .ok ⟨200, body⟩) (hdec : decode body = .ok ⟨⟨total, hits⟩⟩)
    (hpos : total > 0) :
    (mails (search decode w options).trace).map Mail.msg =
      ["Subject: " ++ toString total ++ " service(s) unavailable" ++ "\n" ++ "\n"
        ++ joinLines (hits.map (fun hit => hit.Source.Message))] ∧
    (hits.map (fun hit => hit.Source.Message)).length = hits.length ∧
    ((∀ hit ∈ hits, '\n' ∉ hit.Source.Message.data) →
      (joinLines (hits.map (fun hit => hit.Source.Message))).data.count '\n' = hits.length) := by
  refine ⟨?_, by simp, ?_⟩
  · rw [search_decoded decode w options body _ hhttp hdec]
    simp only [hpos, if_true, mails, mails_send, writeMessages_String, mailMessage_eq,
      FormatInt_eq_toString, List.map_cons, List.map_nil]
  · intro h
    rw [count_newline_joinLines, List.length_map]
    intro m hm
    obtain ⟨hit, hhit, rfl⟩ := List.mem_map.1 hm
    exact h hit hhit

/-- A total of 1000 with one returned hit, a total of 1 with three, and a total of 7 with none:
the subject has the total and the body the returned hits. -/
theorem notification_keeps_total_and_returned_hits_witness :
    (sampleWorld 200).http = .ok ⟨200, "\x7b\x7d"⟩ ∧
    sampleDecode 1000 ["a"] "\x7b\x7d" = .ok ⟨⟨1000, [⟨⟨"a"⟩⟩]⟩⟩ ∧
    (1000 : Int) > 0 ∧
    (mails (search (sampleDecode 1000 ["a"]) (sampleWorld 200) sampleOptions).trace).map Mail.msg
      = ["Subject: 1000 service(s) unavailable\n\na\n"] ∧
    (mails (search (sampleDecode 1 ["a", "b", "c"]) (sampleWorld 200)
        sampleOptions).trace).map Mail.msg
      = ["Subject: 1 service(s) unavailable\n\na\nb\nc\n"] ∧
    (mails (search (sampleDecode 7 []) (sampleWorld 200) sampleOptions).trace).map Mail.msg
      = ["Subject: 7 service(s) unavailable\n\n"] :=
  ⟨rfl, rfl, by decide,
   (notification_keeps_total_and_returned_hits (sampleDecode 1000 ["a"]) (sampleWorld 200)
      sampleOptions "\x7b\x7d" 1000 [⟨⟨"a"⟩⟩] rfl rfl (by decide)).1.trans (by decide),
   (notification_keeps_total_and_returned_hits (sampleDecode 1 ["a", "b", "c"])
      (sampleWorld 200) sampleOptions "\x7b\x7d" 1 [⟨⟨"a"⟩⟩, ⟨⟨"b"⟩⟩, ⟨⟨"c"⟩⟩] rfl rfl
      (by decide)).1.trans (by decide),
   (notification_keeps_total_and_returned_hits (sampleDecode 7 []) (sampleWorld 200)
      sampleOptions "\x7b\x7d" 7 [] rfl rfl (by decide)).1.trans (by decide)⟩

/-- C9: the request body is built once and is unchanged by polling.  For every variable
`options` of `main` that lies in memory and every run of ticks of the main loop, each tick
passing `options` to `search` by value: after the ticks the body that `main` holds has the
unread content and the length it had before the first tick; every tick that ran issued the
request of the first tick, the same POST with the same bytes or the same GET; and when no
tick was fatal every tick ran.  In each call the POST reads the copy of the callee, which
loses the characters read, and the body of `main` keeps them. -/
theorem request_body_unchanged_by_polling (decode : String → Except String Search)
    (options : OptionsVar) (m : Memory) (ws : List World) (halloc : options.body < m.next) :
    (options.view (mainLoop decode options m ws).2).body.unread = (options.view m).body.unread ∧
    (options.view (mainLoop decode options m ws).2).body.Len = (options.view m).body.Len ∧
    (∀ r ∈ (mainLoop decode options m ws).1,
      (requests r.trace).map Request.methodAndBody =
        [if (options.view m).body.unread ≠ "" then
          ("POST", some (options.view m).body.unread)
        else ("GET", none)]) ∧
    ((∀ r ∈ (mainLoop decode options m ws).1, r.fatal = none) →
      (mainLoop decode options m ws).1.length = ws.length) ∧
    (∀ w : World, (options.view m).body.unread ≠ "" →
      ((options.pass m).1.view
          (searchMem decode w (options.pass m).2 (options.pass m).1).2).body
        = (options.view m).body.Read w.bodyRead ∧
      (options.view (searchMem decode w (options.pass m).2 (options.pass m).1).2).body
        = (options.view m).body) := by
  have hview := mainLoop_view decode options ws m halloc
  refine ⟨by rw [hview], by rw [hview], ?_, mainLoop_length decode options ws m, ?_⟩
  · intro r hr
    obtain ⟨w, _, rfl⟩ := mainLoop_results decode options ws m halloc r hr
    rw [requests_search, dispatch_request]
    by_cases h : (options.view m).body.unread = "" <;> simp [h, Request.methodAndBody]
  · intro w hne
    constructor
    · rw [searchMem_view_parameter, search_options, pass_view_parameter]
      have hl : (options.view m).body.Len > 0 := (Len_pos_iff _).2 hne
      simp [dispatch, hl]
    · rw [(tick_frame decode w m options halloc).2.1]

/-- Three ticks with a custom body in memory: three times the same POST, on the date of each
tick, and the body of `main` is whole after them; in the call of the first tick the copy of
the callee is read to its end.  Had `search` been given the variable of `main` itself, the
body of `main` would be read to its end. -/
theorem request_body_unchanged_by_polling_witness :
    sampleOptionsVar.body < sampleMemory.next ∧
    ((mainLoop (sampleDecode 0 []) sampleOptionsVar sampleMemory
        [sampleWorld 200, ⟨⟨2014, 3, 9⟩, .ok ⟨200, ""⟩, none, 14⟩,
          ⟨⟨2014, 3, 10⟩, .ok ⟨200, ""⟩, none, 14⟩]).1.map (fun r => requests r.trace))
      = [[Request.post "http://es:9200/logstash-2014.03.09/_search" "application/json"
            "\x7b\"query\":\"5m\"\x7d"],
         [Request.post "http://es:9200/logstash-2014.03.09/_search" "application/json"
            "\x7b\"query\":\"5m\"\x7d"],
         [Request.post "http://es:9200/logstash-2014.03.10/_search" "application/json"
            "\x7b\"query\":\"5m\"\x7d"]] ∧
    (sampleOptionsVar.view (mainLoop (sampleDecode 0 []) sampleOptionsVar sampleMemory
        [sampleWorld 200, ⟨⟨2014, 3, 9⟩, .ok ⟨200, ""⟩, none, 14⟩,
          ⟨⟨2014, 3, 10⟩, .ok ⟨200, ""⟩, none, 14⟩]).2).body.unread
      = "\x7b\"query\":\"5m\"\x7d" ∧
    ((sampleOptionsVar.pass sampleMemory).1.view
        (searchMem (sampleDecode 0 []) (sampleWorld 200) (sampleOptionsVar.pass sampleMemory).2
          (sampleOptionsVar.pass sampleMemory).1).2).body.unread = "" ∧
    (sampleOptionsVar.view
        (searchMem (sampleDecode 0 []) (sampleWorld 200) sampleMemory
          sampleOptionsVar).2).body.unread = "" :=
  ⟨by decide, by decide,
   (request_body_unchanged_by_polling (sampleDecode 0 []) sampleOptionsVar sampleMemory
      [sampleWorld 200, ⟨⟨2014, 3, 9⟩, .ok ⟨200, ""⟩, none, 14⟩,
        ⟨⟨2014, 3, 10⟩, .ok ⟨200, ""⟩, none, 14⟩] (by decide)).1.trans (by decide),
   by decide, by decide⟩

/-- C10: matched log messages cannot add or alter mail headers.  For every total and every two
messages strings, of any characters, the header section of the message `send` builds (the text
before the first blank line) is the same for both and is exactly the single line `Subject: `,
the decimal total, ` service(s) unavailable`; and every mail of `search` has such a header
section. -/
theorem messages_cannot_alter_headers (decode : String → Except String Search) (w : World)
    (options : Options) (total : Int) (m1 m2 : String) :
    (mails (send w options total m1).trace).map (fun m => headerSection m.msg)
      = ["Subject: " ++ toString total ++ " service(s) unavailable"] ∧
    (mails (send w options total m1).trace).map (fun m => headerSection m.msg)
      = (mails (send w options total m2).trace).map (fun m => headerSection m.msg) ∧
    (∀ m ∈ mails (search decode w options).trace,
      ∃ n : Int, headerSection m.msg = "Subject: " ++ toString n ++ " service(s) unavailable") := by
  refine ⟨?_, ?_, ?_⟩
  · simp only [mails_send, List.map_cons, List.map_nil, headerSection_mailMessage,
      FormatInt_eq_toString]
  · simp only [mails_send, List.map_cons, List.map_nil, headerSection_mailMessage]
  · intro m hm
    rcases mails_search decode w options with h | ⟨n, messages, h⟩
    · rw [h] at hm; cases hm
    · rw [h] at hm
      rw [List.mem_singleton.1 hm]
      exact ⟨n, by simp only [headerSection_mailMessage, FormatInt_eq_toString]⟩

/-- A message shaped like a header, after a blank line of its own, stays in the body. -/
theorem messages_cannot_alter_headers_witness :
    (mails (send (sampleWorld 200) sampleOptions 2 "Bcc: x@y\n\nTo: z\n").trace).map
        (fun m => headerSection m.msg) = ["Subject: 2 service(s) unavailable"] ∧
    (mails (search (sampleDecode 2 ["\nBcc: x@y", "\n"]) (sampleWorld 200)
        sampleOptions).trace).map (fun m => headerSection m.msg)
      = ["Subject: 2 service(s) unavailable"] :=
  ⟨(messages_cannot_alter_headers (sampleDecode 0 []) (sampleWorld 200) sampleOptions 2
      "Bcc: x@y\n\nTo: z\n" "").1.trans (by decide), by decide⟩

end Healthy
